import Mathlib

/-!
# Verification of the TikTok-live supervisor/worker program

A shallow embedding of `src/main.py` (a single-file supervisor that keeps a
worker subprocess and a uvicorn web server alive) together with proofs of the
specified properties.

The embedding covers:

* the worker-side connection loop (`start_tiktok_client` plus the `on_connect`
  handler and the module-level `is_live` flag),
* the notification sender `send_line_message`,
* the supervisor poll loop `supervisor_loop` (worker slot only: ensure-running,
  heartbeat-file deletion, heartbeat staleness check, force-kill),
* the worker's cooperative event loop (`asyncio.gather` of
  `start_tiktok_client` and `heartbeat_loop`).
-/

namespace TikTokSupervisor

/-! ## Constants from the source (`main.py` lines 36-41 and the worker script) -/

/-- `HEARTBEAT_INTERVAL = 20` : worker updates heartbeat every N seconds. -/
def HEARTBEAT_INTERVAL : Nat := 20

/-- `HEARTBEAT_TIMEOUT = 90` : supervisor treats worker as dead past this age. -/
def HEARTBEAT_TIMEOUT : ℚ := 90

/-- `WORKER_RESTART_BACKOFF = 5` : seconds to wait before restarting a failed worker. -/
def WORKER_RESTART_BACKOFF : ℚ := 5

/-- `CHECK_INTERVAL = 10` : supervisor poll cadence. -/
def CHECK_INTERVAL : ℚ := 10

/-! ## Worker connection loop (`start_tiktok_client`, `on_connect`)

The worker loop `start_tiktok_client` repeatedly awaits `client.start()`;
each pass ends in exactly one of the classified outcomes:

* a `ConnectEvent` delivered to `on_connect` (a "connected" signal),
* `UserOfflineError`   — sets `is_live = False`, sleeps 5 s,
* `UserNotFoundError`  — leaves `is_live` unchanged, sleeps 30 s,
* any other `Exception` — sets `is_live = False`, sleeps 10 s.

The loop is `while True` and every exception of these classes is caught, so
no event makes the loop (or the worker process) exit.
-/

/-- The signals the live-stream client can deliver to the worker loop. -/
inductive WEvent where
  | connected
  | streamOffline
  | streamNotFound
  | genericFault
deriving DecidableEq, Repr

/-- Worker-side connection state.

`is_live` embeds the module-level global of the worker script.
`clientGen` counts how many times the `client` object has been rebuilt;
in the source `client = TikTokLiveClient(unique_id=TARGET_USER)` is executed
exactly once, at module load, and `client` is never reassigned afterwards, so
no transition of the loop changes `clientGen`. -/
structure ConnState where
  is_live : Bool
  clientGen : Nat
deriving DecidableEq, Repr

/-- Observable effects of handling one signal. -/
structure ConnEffect where
  /-- number of notifications sent while handling this signal (0 or 1) -/
  notifs : Nat
  /-- seconds slept before the next `client.start()` retry -/
  sleep : Nat
  /-- whether handling this signal terminates the worker process -/
  exits : Bool
deriving DecidableEq, Repr

/-- One step of the worker's connection state machine: `on_connect` for the
connected signal, and the three `except` arms of `start_tiktok_client` for the
failure classes. -/
def connStep (s : ConnState) (e : WEvent) : ConnState × ConnEffect :=
  match e with
  | .connected =>
      if s.is_live then
        (s, ⟨0, 0, false⟩)
      else
        ({ s with is_live := true }, ⟨1, 0, false⟩)
  | .streamOffline =>
      ({ s with is_live := false }, ⟨0, 5, false⟩)
  | .streamNotFound =>
      (s, ⟨0, 30, false⟩)
  | .genericFault =>
      ({ s with is_live := false }, ⟨0, 10, false⟩)

/-- Run the connection loop over a list of delivered signals. -/
def runConn (s : ConnState) : List WEvent → ConnState
  | [] => s
  | e :: es => runConn (connStep s e).1 es

/-- Total number of notifications sent over a list of delivered signals. -/
def notifCount (s : ConnState) : List WEvent → Nat
  | [] => 0
  | e :: es => (connStep s e).2.notifs + notifCount (connStep s e).1 es

/-- An event that ends the current online session in the source: only
`UserOfflineError` and the generic `Exception` arm reset `is_live`. -/
def endsSession : WEvent → Bool
  | .streamOffline => true
  | .genericFault => true
  | _ => false

lemma runConn_live_of_no_end (es : List WEvent) :
    ∀ s : ConnState, s.is_live = true → (∀ e ∈ es, endsSession e = false) →
      notifCount s es = 0 ∧ (runConn s es).is_live = true ∧
      (runConn s es).clientGen = s.clientGen := by
  induction es with
  | nil => intro s hs _; exact ⟨rfl, hs, rfl⟩
  | cons e es ih =>
      intro s hs h
      have he : endsSession e = false := h e (List.mem_cons_self e es)
      have hes : ∀ e' ∈ es, endsSession e' = false :=
        fun e' h' => h e' (List.mem_cons_of_mem e h')
      cases e with
      | connected =>
          simp only [connStep, hs, if_true, runConn, notifCount, Nat.zero_add]
          exact ⟨(ih s hs hes).1, (ih s hs hes).2.1, (ih s hs hes).2.2⟩
      | streamOffline => simp [endsSession] at he
      | streamNotFound =>
          simp only [connStep, runConn, notifCount, Nat.zero_add]
          exact ⟨(ih s hs hes).1, (ih s hs hes).2.1, (ih s hs hes).2.2⟩
      | genericFault => simp [endsSession] at he

/-- **C1.** While the worker is Live, connected signals are suppressed: from
Idle (`is_live = false`), a connected signal sends exactly one notification and
moves the state to Live, and any further signals that do not end the session
(more connected signals, or `StreamNotFound`) send no further notification, so
the whole uninterrupted online session produces exactly one notification. -/
theorem connected_notifies_exactly_once_per_session
    (g : Nat) (es : List WEvent) (h : ∀ e ∈ es, endsSession e = false) :
    (connStep ⟨false, g⟩ .connected).1.is_live = true ∧
    (connStep ⟨false, g⟩ .connected).2.notifs = 1 ∧
    notifCount ⟨false, g⟩ (.connected :: es) = 1 := by
  refine ⟨rfl, rfl, ?_⟩
  have hlive : (connStep ⟨false, g⟩ .connected).1.is_live = true := rfl
  have := (runConn_live_of_no_end es (connStep ⟨false, g⟩ .connected).1 hlive h).1
  simp only [notifCount, this]
  rfl

/-- Witness for C1: two duplicate connected signals and a `StreamNotFound`
after the first connected signal still yield exactly one notification. -/
theorem connected_notifies_exactly_once_per_session_witness :
    notifCount ⟨false, 0⟩ [.connected, .connected, .streamNotFound, .connected] = 1 :=
  (connected_notifies_exactly_once_per_session 0
    [.connected, .streamNotFound, .connected] (by decide)).2.2

/-- **C4 counterexample.** The claim says that after 5 consecutive
`GenericFault` classifications the client is rebuilt (which would increment
`clientGen` past 0) and a fault tally resets. In the source there is no fault
tally, and `client` is never reassigned: after 5 consecutive generic faults
the client generation is still 0, so no rebuild has happened. -/
theorem no_rebuild_after_five_faults :
    ¬ 0 < (runConn ⟨false, 0⟩ (List.replicate 5 .genericFault)).clientGen := by
  decide

/-- **C4 amended.** The worker keeps no fault tally and never rebuilds the
client: after any number of consecutive `GenericFault` classifications the
client generation is unchanged and `is_live` is false, and a subsequent
connected signal still produces exactly one notification. -/
theorem faults_never_rebuild_client (g : Nat) (n : Nat) :
    (runConn ⟨false, g⟩ (List.replicate n .genericFault)).clientGen = g ∧
    (runConn ⟨false, g⟩ (List.replicate n .genericFault)).is_live = false ∧
    (connStep (runConn ⟨false, g⟩ (List.replicate n .genericFault)) .connected).2.notifs = 1 := by
  have key : ∀ m : Nat, ∀ s : ConnState, s.is_live = false →
      runConn s (List.replicate m .genericFault) = ⟨false, s.clientGen⟩ := by
    intro m
    induction m with
    | zero =>
        intro s hs
        cases s with
        | mk l g => cases hs; rfl
    | succ m ih =>
        intro s hs
        simp only [List.replicate, runConn, connStep]
        exact ih _ rfl
  have hrun := key n ⟨false, g⟩ rfl
  rw [hrun]
  exact ⟨rfl, rfl, rfl⟩

/-- **C6.** Backoff differentiation under the source's hard-coded values:
`StreamNotFound` waits 30 s, `GenericFault` waits 10 s, `StreamOffline` waits
5 s, so backoff_notfound > backoff_genericfault > backoff_offline. -/
theorem backoff_strictly_ordered (s : ConnState) :
    (connStep s .streamNotFound).2.sleep > (connStep s .genericFault).2.sleep ∧
    (connStep s .genericFault).2.sleep > (connStep s .streamOffline).2.sleep :=
  ⟨by simp [connStep], by simp [connStep]⟩

/-- **C7.** `StreamNotFound` is a frame-preserving retry: for every connection
state, it leaves the state (in particular `is_live`) unchanged, sleeps the
long 30-second backoff, sends no notification, and never exits the worker. -/
theorem notfound_preserves_state_and_never_exits (s : ConnState) :
    (connStep s .streamNotFound).1 = s ∧
    (connStep s .streamNotFound).2.sleep = 30 ∧
    (connStep s .streamNotFound).2.notifs = 0 ∧
    (connStep s .streamNotFound).2.exits = false :=
  ⟨rfl, rfl, rfl, rfl⟩

/-- No classified event ever exits the worker process: every arm of the
`while True` loop catches its exception and continues. -/
theorem no_event_exits_worker (s : ConnState) (e : WEvent) :
    (connStep s e).2.exits = false := by
  cases e with
  | connected =>
      by_cases h : s.is_live <;> simp [connStep, h]
  | streamOffline => rfl
  | streamNotFound => rfl
  | genericFault => rfl

/-! ## Notification transport (`send_line_message`)

`send_line_message` performs a single `httpx` POST inside a `try`:
a non-200 status is printed; any raised exception is caught and printed.
In every case the coroutine returns normally and makes exactly one attempt.
-/

/-- Outcome of the single `httpx` POST carried out by `send_line_message`. -/
inductive HttpOutcome where
  | response (status : Nat)
  | raised
deriving DecidableEq, Repr

/-- Whether the transport outcome is an error (non-200 status or exception). -/
def isTransportError : HttpOutcome → Bool
  | .response status => status ≠ 200
  | .raised => true

/-- Observable behaviour of one `send_line_message` call. -/
structure SendResult where
  /-- an error line was printed -/
  loggedError : Bool
  /-- number of POST attempts made -/
  attempts : Nat
  /-- the call re-raised an exception to its caller -/
  propagates : Bool
deriving DecidableEq, Repr

/-- `send_line_message`, reduced to its observable behaviour as a function of
the transport outcome. -/
def send_line_message : HttpOutcome → SendResult
  | .response status =>
      if status ≠ 200 then ⟨true, 1, false⟩ else ⟨false, 1, false⟩
  | .raised => ⟨true, 1, false⟩

/-- **C9.** Every transport error (non-200 status or raised exception) is
logged and swallowed: the send returns normally (nothing propagates), exactly
one attempt is made (no retry), and an error line is printed exactly when the
outcome is an error. -/
theorem transport_errors_logged_and_swallowed (o : HttpOutcome) :
    (send_line_message o).propagates = false ∧
    (send_line_message o).attempts = 1 ∧
    (send_line_message o).loggedError = isTransportError o := by
  cases o with
  | response status =>
      by_cases h : status = 200 <;> simp [send_line_message, isTransportError, h]
  | raised => exact ⟨rfl, rfl, rfl⟩

/-! ## Supervisor loop (`supervisor_loop`, worker slot)

One iteration of the `while True` body, restricted to the worker slot
(the web-server slot is structurally identical and not claimed about):

1. ensure worker: if `worker_proc is None or worker_proc.poll() is not None`,
   sleep `WORKER_RESTART_BACKOFF` — but only when a handle is present, i.e.
   the worker exited by itself — then delete the heartbeat file and spawn a
   fresh worker;
2. `await asyncio.sleep(CHECK_INTERVAL)`;
3. poll the heartbeat file: absent → log, continue; `stat` raises → log,
   continue; age > `HEARTBEAT_TIMEOUT` → kill the worker and set
   `worker_proc = None`; otherwise do nothing.

Heartbeat-file contents are tagged with the generation (spawn index) of the
worker that wrote them, so that attribution of timestamps to workers is
expressible; timestamps are rationals (the source compares float seconds).
-/

/-- Supervisor-visible state across iterations.

`workerProc` is the current worker handle, carrying the generation (spawn
index) of that worker; `none` embeds `worker_proc = None`. `hbFile` is the
heartbeat file: `some (g, t)` means the file exists with mtime `t`, written by
worker generation `g`. `spawns` counts worker spawns so far. -/
structure SupState where
  workerProc : Option Nat
  hbFile : Option (Nat × ℚ)
  spawns : Nat
deriving DecidableEq, Repr

/-- External inputs consumed by one supervisor iteration. -/
structure SupEnv where
  /-- `worker_proc.poll() is not None`: the current worker has exited -/
  workerExited : Bool
  /-- mtime the (live) worker writes to the heartbeat file during the
  check-interval sleep, if it writes -/
  hbWrite : Option ℚ
  /-- `hb_path.stat()` raises at poll time -/
  statFails : Bool
  /-- wall clock (`datetime.utcnow()`) when the age is computed -/
  now : ℚ
deriving DecidableEq, Repr

/-- Externally visible actions of one supervisor iteration, in order. -/
inductive SupAction where
  | sleepBackoff (secs : ℚ)
  | clearHb
  | spawnWorker (gen : Nat)
  | sleepCheck
  | logNoHb
  | logStatFail
  | killWorker
deriving DecidableEq, Repr

/-- The ensure-worker phase (`main.py` lines 92-103): respawn when the handle
is absent or the worker exited; the backoff sleep happens only when a handle
is present (`worker_proc is not None`); the heartbeat file is unlinked just
before the spawn. -/
def ensureWorker (s : SupState) (exited : Bool) : SupState × List SupAction :=
  match s.workerProc with
  | none =>
      (⟨some s.spawns, none, s.spawns + 1⟩, [.clearHb, .spawnWorker s.spawns])
  | some _ =>
      if exited then
        (⟨some s.spawns, none, s.spawns + 1⟩,
         [.sleepBackoff WORKER_RESTART_BACKOFF, .clearHb, .spawnWorker s.spawns])
      else (s, [])

/-- During the check-interval sleep, a live worker may overwrite the heartbeat
file; the write is attributed to the current worker's generation. -/
def applyHbWrite (s : SupState) (w : Option ℚ) : SupState :=
  match s.workerProc, w with
  | some g, some t => { s with hbFile := some (g, t) }
  | _, _ => s

/-- The heartbeat-poll phase (`main.py` lines 107-125): absent file → log and
continue; `stat` failure → log and continue; stale age → kill the worker and
clear the handle; fresh age → no-op. -/
def pollHeartbeat (s : SupState) (e : SupEnv) : SupState × List SupAction :=
  match s.hbFile with
  | none => (s, [.logNoHb])
  | some (_, t) =>
      if e.statFails then (s, [.logStatFail])
      else if e.now - t > HEARTBEAT_TIMEOUT then
        ({ s with workerProc := none }, [.killWorker])
      else (s, [])

/-- One iteration of the supervisor's `while True` body (worker slot). -/
def supIter (s : SupState) (e : SupEnv) : SupState × List SupAction :=
  let p1 := ensureWorker s e.workerExited
  let p3 := pollHeartbeat (applyHbWrite p1.1 e.hbWrite) e
  (p3.1, p1.2 ++ .sleepCheck :: p3.2)

/-- Supervisor state before the first iteration: no handles, no heartbeat. -/
def supInit : SupState := ⟨none, none, 0⟩

/-- Run the supervisor over a list of per-iteration environments. -/
def supRun (s : SupState) : List SupEnv → SupState
  | [] => s
  | e :: es => supRun (supIter s e).1 es

/-- **C3.** The supervisor poll behaves per the specified table: an absent
record is logged and the loop continues; an age within the timeout is a no-op;
a stale age force-kills the worker and clears the handle, and the following
iteration spawns a replacement before its own check-interval sleep (hence
within one check interval). -/
theorem supervisor_poll_table (s : SupState) (e e' : SupEnv) :
    (s.hbFile = none → pollHeartbeat s e = (s, [.logNoHb])) ∧
    (∀ g t, s.hbFile = some (g, t) → e.statFails = false →
      e.now - t ≤ HEARTBEAT_TIMEOUT → pollHeartbeat s e = (s, [])) ∧
    (∀ g t, s.hbFile = some (g, t) → e.statFails = false →
      e.now - t > HEARTBEAT_TIMEOUT →
      (pollHeartbeat s e).1.workerProc = none ∧
      (pollHeartbeat s e).2 = [.killWorker] ∧
      (supIter (pollHeartbeat s e).1 e').2.take 3 =
        [.clearHb, .spawnWorker s.spawns, .sleepCheck]) := by
  refine ⟨fun h => by simp [pollHeartbeat, h], ?_, ?_⟩
  · intro g t hf hsf hage
    simp [pollHeartbeat, hf, hsf, not_lt.mpr hage]
  · intro g t hf hsf hage
    have hpoll : pollHeartbeat s e = ({ s with workerProc := none }, [.killWorker]) := by
      simp [pollHeartbeat, hf, hsf, hage]
    refine ⟨by rw [hpoll], by rw [hpoll], ?_⟩
    rw [hpoll]
    simp [supIter, ensureWorker, List.take]

/-- Witness for C3: the three rows of the table at concrete states — an absent
record, a 50-second-old record, and a 100-second-old record. -/
theorem supervisor_poll_table_witness :
    pollHeartbeat ⟨some 0, none, 1⟩ ⟨false, none, false, 150⟩ =
      (⟨some 0, none, 1⟩, [.logNoHb]) ∧
    pollHeartbeat ⟨some 0, some (0, 100), 1⟩ ⟨false, none, false, 150⟩ =
      (⟨some 0, some (0, 100), 1⟩, []) ∧
    ((pollHeartbeat ⟨some 0, some (0, 100), 1⟩ ⟨false, none, false, 200⟩).1.workerProc = none ∧
     (pollHeartbeat ⟨some 0, some (0, 100), 1⟩ ⟨false, none, false, 200⟩).2 = [.killWorker] ∧
     (supIter (pollHeartbeat ⟨some 0, some (0, 100), 1⟩ ⟨false, none,
        false, 200⟩).1 ⟨false, none, false, 201⟩).2.take 3 =
        [.clearHb, .spawnWorker 1, .sleepCheck]) :=
  ⟨(supervisor_poll_table ⟨some 0, none, 1⟩ ⟨false, none, false, 150⟩
      ⟨false, none, false, 201⟩).1 rfl,
   (supervisor_poll_table ⟨some 0, some (0, 100), 1⟩ ⟨false, none, false, 150⟩
      ⟨false, none, false, 201⟩).2.1 0 100 rfl rfl (by norm_num [HEARTBEAT_TIMEOUT]),
   (supervisor_poll_table ⟨some 0, some (0, 100), 1⟩ ⟨false, none, false, 200⟩
      ⟨false, none, false, 201⟩).2.2 0 100 rfl rfl (by norm_num [HEARTBEAT_TIMEOUT])⟩

/-- Does the action sleep a restart backoff? -/
def isBackoffAction : SupAction → Bool
  | .sleepBackoff _ => true
  | _ => false

/-- First iteration environment for the C5 counterexample run: the fresh
worker writes its heartbeat at time 0 and the supervisor polls at time 1000,
so the record is stale and the worker is force-killed. -/
def c5envKill : SupEnv := ⟨false, some 0, false, 1000⟩

/-- Second iteration environment for the C5 counterexample run. -/
def c5envNext : SupEnv := ⟨false, none, false, 1001⟩

/-- **C5 counterexample.** The claim says the restart backoff is waited before
every respawn after the slot became Exited, including after a force-kill for a
stale heartbeat. In the source the force-kill sets `worker_proc = None`, and
the backoff sleep runs only when `worker_proc is not None`, so the iteration
that respawns after a force-kill performs no backoff sleep at all: in this
concrete run the first iteration kills the worker for staleness, and the
second iteration spawns the replacement with no `sleepBackoff` action. -/
theorem stale_kill_respawn_skips_backoff :
    SupAction.killWorker ∈ (supIter supInit c5envKill).2 ∧
    (supIter supInit c5envKill).1.workerProc = none ∧
    SupAction.spawnWorker 1 ∈ (supIter (supIter supInit c5envKill).1 c5envNext).2 ∧
    ((supIter (supIter supInit c5envKill).1 c5envNext).2.any isBackoffAction) = false := by
  refine ⟨?_, ?_, ?_, ?_⟩ <;>
    simp [supIter, supInit, c5envKill, c5envNext, ensureWorker, applyHbWrite,
      pollHeartbeat, HEARTBEAT_TIMEOUT, isBackoffAction] <;> norm_num

/-- **C5 amended.** The supervisor waits the restart backoff only before
respawning a worker whose still-recorded handle reports that it exited on its
own; the backoff is skipped both on the very first start and on any respawn
after the handle was cleared (as the stale-heartbeat force-kill does). -/
theorem backoff_only_after_self_exit (s : SupState) (b : Bool) :
    (∀ g, s.workerProc = some g → b = true →
      (ensureWorker s b).2 =
        [.sleepBackoff WORKER_RESTART_BACKOFF, .clearHb, .spawnWorker s.spawns]) ∧
    (s.workerProc = none →
      (ensureWorker s b).2 = [.clearHb, .spawnWorker s.spawns]) := by
  constructor
  · intro g hg hb
    simp [ensureWorker, hg, hb]
  · intro h
    simp [ensureWorker, h]

/-- Witness for C5-amended: a worker that exited on its own is respawned after
the backoff; a cleared slot is respawned without it. -/
theorem backoff_only_after_self_exit_witness :
    (ensureWorker ⟨some 0, none, 1⟩ true).2 =
      [.sleepBackoff WORKER_RESTART_BACKOFF, .clearHb, .spawnWorker 1] ∧
    (ensureWorker ⟨none, none, 1⟩ false).2 = [.clearHb, .spawnWorker 1] :=
  ⟨(backoff_only_after_self_exit ⟨some 0, none, 1⟩ true).1 0 rfl rfl,
   (backoff_only_after_self_exit ⟨none, none, 1⟩ false).2 rfl⟩

/-! ### Supervisor model with the best-effort failure paths

The model above treats the heartbeat-file unlink and the force-kill as always
succeeding. The source makes both best-effort only:

* lines 98-101: `try: Path(HEARTBEAT_FILENAME).unlink(missing_ok=True)
  except Exception: pass` — a failed unlink is swallowed, the stale file
  survives into the new worker's tenure;
* lines 120-123: `try: worker_proc.kill() except Exception as e: log(...)` —
  a failed kill leaves the old worker process alive and still writing the
  shared heartbeat file, even though `worker_proc` is cleared regardless.

This refined model carries the set of worker processes actually running
(`alive`) and lets the environment decide whether each unlink and kill
succeeds, so that what survives of the "fresh heartbeat slot" guarantee can
be stated exactly. -/

/-- Supervisor state in the refined model. `alive` lists the generations of
worker processes whose OS process is still running (normally at most the
current one, but a worker whose kill failed lingers). -/
structure SupStateF where
  workerProc : Option Nat
  alive : List Nat
  hbFile : Option (Nat × ℚ)
  spawns : Nat
deriving DecidableEq, Repr

/-- External inputs of one refined supervisor iteration. -/
structure SupEnvF where
  /-- `worker_proc.poll() is not None`: the current worker has exited -/
  workerExited : Bool
  /-- the `unlink` at lines 98-101 raises (and is swallowed) -/
  unlinkFails : Bool
  /-- the `kill` at lines 120-123 raises (and is logged) -/
  killFails : Bool
  /-- heartbeat writes during the check-interval sleep: `(g, t)` is worker
  generation `g` writing mtime `t`; only writes by running processes land -/
  hbWrites : List (Nat × ℚ)
  /-- `hb_path.stat()` raises at poll time -/
  statFails : Bool
  /-- wall clock when the age is computed -/
  now : ℚ
deriving DecidableEq, Repr

/-- Refined ensure-worker phase (lines 92-103): on respawn, a worker that
exited by itself leaves `alive`; the unlink is attempted — when it fails the
old heartbeat file survives — and the new generation is spawned. -/
def ensureWorkerF (s : SupStateF) (exited unlinkFails : Bool) :
    SupStateF × List SupAction :=
  match s.workerProc with
  | none =>
      ({ workerProc := some s.spawns, alive := s.spawns :: s.alive,
         hbFile := if unlinkFails then s.hbFile else none,
         spawns := s.spawns + 1 },
       [.clearHb, .spawnWorker s.spawns])
  | some g =>
      if exited then
        ({ workerProc := some s.spawns, alive := s.spawns :: s.alive.erase g,
           hbFile := if unlinkFails then s.hbFile else none,
           spawns := s.spawns + 1 },
         [.sleepBackoff WORKER_RESTART_BACKOFF, .clearHb, .spawnWorker s.spawns])
      else (s, [])

/-- Heartbeat writes land during the check-interval sleep; only processes that
are actually running can write, each tagging the file with its generation. -/
def applyHbWritesF (s : SupStateF) : List (Nat × ℚ) → SupStateF
  | [] => s
  | w :: ws =>
      applyHbWritesF (if w.1 ∈ s.alive then { s with hbFile := some w } else s) ws

/-- Refined heartbeat-poll phase (lines 107-125): on a stale record the kill
is attempted and `worker_proc` is cleared regardless; only a successful kill
removes the worker's process from `alive`. -/
def pollHeartbeatF (s : SupStateF) (e : SupEnvF) : SupStateF × List SupAction :=
  match s.hbFile with
  | none => (s, [.logNoHb])
  | some (_, t) =>
      if e.statFails then (s, [.logStatFail])
      else if e.now - t > HEARTBEAT_TIMEOUT then
        ({ s with workerProc := none,
                  alive := if e.killFails then s.alive
                    else match s.workerProc with
                      | some g => s.alive.erase g
                      | none => s.alive },
         [.killWorker])
      else (s, [])

/-- One refined supervisor iteration. -/
def supIterF (s : SupStateF) (e : SupEnvF) : SupStateF × List SupAction :=
  let p1 := ensureWorkerF s e.workerExited e.unlinkFails
  let p3 := pollHeartbeatF (applyHbWritesF p1.1 e.hbWrites) e
  (p3.1, p1.2 ++ .sleepCheck :: p3.2)

/-- Refined initial supervisor state. -/
def supInitF : SupStateF := ⟨none, [], none, 0⟩

/-- Run the refined supervisor over a list of per-iteration environments. -/
def supRunF (s : SupStateF) : List SupEnvF → SupStateF
  | [] => s
  | e :: es => supRunF (supIterF s e).1 es

/-- An iteration whose best-effort operations all succeed: the unlink deletes
the file and any kill terminates its target. -/
def goodEnvF (e : SupEnvF) : Prop :=
  e.unlinkFails = false ∧ e.killFails = false

/-- At most one worker process runs, and it is the slot holder. -/
def aliveInv (s : SupStateF) : Prop :=
  s.alive = [] ∨ ∃ g, s.workerProc = some g ∧ s.alive = [g]

/-- Whatever the heartbeat file holds was written by the worker currently
holding the slot. -/
def hbAttributionF (s : SupStateF) : Prop :=
  ∀ g t g', s.hbFile = some (g, t) → s.workerProc = some g' → g = g'

/-- First iteration of the C10 counterexample run: the fresh worker writes at
time 0, the supervisor polls at time 1000, so the record is stale and the
worker is killed (kill succeeds). -/
def c10envStaleKill : SupEnvF := ⟨false, false, false, [(0, 0)], false, 1000⟩

/-- Second iteration of the C10 counterexample run: the respawn's heartbeat
unlink raises and is swallowed. -/
def c10envUnlinkFail : SupEnvF := ⟨false, true, false, [], false, 1001⟩

/-- **C10 counterexample.** The claim says the heartbeat slot is cleared
before every respawn, so the new worker starts fresh and a stale timestamp of
the previous worker is never attributed to it. The deletion is only
attempted: `unlink` failures are swallowed (lines 98-101). In this concrete
run, worker 0 is killed for a stale heartbeat; at the respawn the unlink
fails, so worker 1 starts with worker 0's timestamp still on file — not a
fresh slot — and in the very same iteration the supervisor attributes that
stale record to worker 1 and kills it too. -/
theorem stale_record_attributed_to_new_worker :
    (ensureWorkerF (supIterF supInitF c10envStaleKill).1 false true).1.workerProc = some 1 ∧
    (ensureWorkerF (supIterF supInitF c10envStaleKill).1 false true).1.hbFile = some (0, 0) ∧
    SupAction.killWorker ∈ (supIterF (supIterF supInitF c10envStaleKill).1 c10envUnlinkFail).2 ∧
    (supIterF (supIterF supInitF c10envStaleKill).1 c10envUnlinkFail).1.workerProc = none := by
  refine ⟨?_, ?_, ?_, ?_⟩ <;>
    simp [supIterF, supInitF, c10envStaleKill, c10envUnlinkFail, ensureWorkerF,
      applyHbWritesF, pollHeartbeatF, HEARTBEAT_TIMEOUT] <;> norm_num

lemma goodInv_ensureF (s : SupStateF) (b : Bool) :
    aliveInv s → hbAttributionF s →
    aliveInv (ensureWorkerF s b false).1 ∧ hbAttributionF (ensureWorkerF s b false).1 := by
  intro ha hb
  match hw : s.workerProc with
  | none =>
      have halive : s.alive = [] := by
        rcases ha with h | ⟨g, hg, -⟩
        · exact h
        · rw [hw] at hg; cases hg
      constructor
      · right
        exact ⟨s.spawns, by simp [ensureWorkerF, hw, halive]⟩
      · intro g t g' hf _
        simp [ensureWorkerF, hw] at hf
  | some g0 =>
      by_cases hex : b
      · have herase : s.alive.erase g0 = [] := by
          rcases ha with h | ⟨g, hg, hal⟩
          · rw [h]; rfl
          · rw [hw] at hg
            cases hg
            rw [hal]
            simp
        constructor
        · right
          exact ⟨s.spawns, by simp [ensureWorkerF, hw, hex, herase]⟩
        · intro g t g' hf _
          simp [ensureWorkerF, hw, hex] at hf
      · have hres : ensureWorkerF s b false = (s, []) := by
          simp [ensureWorkerF, hw, hex]
        rw [hres]
        exact ⟨ha, hb⟩

lemma goodInv_writesF (ws : List (Nat × ℚ)) :
    ∀ s : SupStateF, aliveInv s → hbAttributionF s →
      aliveInv (applyHbWritesF s ws) ∧ hbAttributionF (applyHbWritesF s ws) := by
  induction ws with
  | nil => intro s ha hb; exact ⟨ha, hb⟩
  | cons w ws ih =>
      intro s ha hb
      by_cases hm : w.1 ∈ s.alive
      · have hstep : applyHbWritesF s (w :: ws) =
            applyHbWritesF { s with hbFile := some w } ws := by
          simp [applyHbWritesF, hm]
        rw [hstep]
        refine ih _ ?_ ?_
        · rcases ha with h | ⟨g, hg, hal⟩
          · left; exact h
          · right; exact ⟨g, hg, hal⟩
        · intro g t g' hf hp
          simp only at hf hp
          rcases ha with h | ⟨g1, hg1, hal⟩
          · rw [h] at hm; cases hm
          · rw [hal] at hm
            simp only [List.mem_singleton] at hm
            rw [hg1] at hp
            cases hp
            cases hf
            omega
      · have hstep : applyHbWritesF s (w :: ws) = applyHbWritesF s ws := by
          simp [applyHbWritesF, hm]
        rw [hstep]
        exact ih s ha hb

lemma goodInv_pollF (s : SupStateF) (e : SupEnvF) (hk : e.killFails = false) :
    aliveInv s → hbAttributionF s →
    aliveInv (pollHeartbeatF s e).1 ∧ hbAttributionF (pollHeartbeatF s e).1 := by
  intro ha hb
  rcases hf : s.hbFile with _ | ⟨g, t⟩
  · simpa [pollHeartbeatF, hf] using ⟨ha, hb⟩
  · by_cases hsf : e.statFails
    · simpa [pollHeartbeatF, hf, hsf] using ⟨ha, hb⟩
    · by_cases hage : e.now - t > HEARTBEAT_TIMEOUT
      · have h1 : (pollHeartbeatF s e).1.workerProc = none := by
          simp [pollHeartbeatF, hf, hsf, hage]
        have h2 : (pollHeartbeatF s e).1.alive =
            (match s.workerProc with
             | some g0 => s.alive.erase g0
             | none => s.alive) := by
          simp [pollHeartbeatF, hf, hsf, hage, hk]
        constructor
        · refine Or.inl ?_
          rw [h2]
          rcases hw : s.workerProc with _ | g0
          · rcases ha with h | ⟨g1, hg1, hal⟩
            · exact h
            · rw [hw] at hg1; cases hg1
          · rcases ha with h | ⟨g1, hg1, hal⟩
            · rw [h]; rfl
            · rw [hw] at hg1
              injection hg1 with hgg
              subst hgg
              rw [hal]
              simp
        · intro g1 t1 g' _ hp
          rw [h1] at hp
          cases hp
      · simpa [pollHeartbeatF, hf, hsf, hage] using ⟨ha, hb⟩

lemma goodInv_supIterF (s : SupStateF) (e : SupEnvF) (hg : goodEnvF e) :
    aliveInv s → hbAttributionF s →
    aliveInv (supIterF s e).1 ∧ hbAttributionF (supIterF s e).1 := by
  intro ha hb
  obtain ⟨hu, hk⟩ := hg
  have hgoal : (supIterF s e).1 =
      (pollHeartbeatF (applyHbWritesF
        (ensureWorkerF s e.workerExited e.unlinkFails).1 e.hbWrites) e).1 := rfl
  rw [hgoal, hu]
  obtain ⟨h1a, h1b⟩ := goodInv_ensureF s e.workerExited ha hb
  obtain ⟨h2a, h2b⟩ := goodInv_writesF e.hbWrites _ h1a h1b
  exact goodInv_pollF _ e hk h2a h2b

/-- **C10 amended.** Before every worker respawn the supervisor *attempts* to
delete the heartbeat file (unlink failures are swallowed); when the unlink
succeeds the new worker starts with a fresh heartbeat slot and the new
handle; and along every supervisor run whose unlinks and kills all succeed —
so only the current worker's process is running — a heartbeat record on file
is always attributed to the worker currently holding the slot. -/
theorem respawn_clears_heartbeat_slot_under_good_io :
    (∀ (s : SupStateF) (b : Bool), s.workerProc = none ∨ b = true →
      (ensureWorkerF s b false).1.hbFile = none ∧
      (ensureWorkerF s b false).1.workerProc = some s.spawns ∧
      ((ensureWorkerF s b false).2 = [.clearHb, .spawnWorker s.spawns] ∨
       (ensureWorkerF s b false).2 =
         [.sleepBackoff WORKER_RESTART_BACKOFF, .clearHb, .spawnWorker s.spawns])) ∧
    (∀ (s : SupStateF) (b u : Bool), s.workerProc = none ∨ b = true →
      ((ensureWorkerF s b u).2 = [.clearHb, .spawnWorker s.spawns] ∨
       (ensureWorkerF s b u).2 =
         [.sleepBackoff WORKER_RESTART_BACKOFF, .clearHb, .spawnWorker s.spawns])) ∧
    (∀ envs : List SupEnvF, (∀ e ∈ envs, goodEnvF e) →
      hbAttributionF (supRunF supInitF envs)) := by
  refine ⟨?_, ?_, ?_⟩
  · intro s b hb
    match hw : s.workerProc with
    | none => simp [ensureWorkerF, hw]
    | some g =>
        have hbtrue : b = true := by
          rcases hb with h | h
          · rw [hw] at h; cases h
          · exact h
        simp [ensureWorkerF, hw, hbtrue]
  · intro s b u hb
    match hw : s.workerProc with
    | none => simp [ensureWorkerF, hw]
    | some g =>
        have hbtrue : b = true := by
          rcases hb with h | h
          · rw [hw] at h; cases h
          · exact h
        simp [ensureWorkerF, hw, hbtrue]
  · have run : ∀ (envs : List SupEnvF) (s : SupStateF), (∀ e ∈ envs, goodEnvF e) →
        aliveInv s → hbAttributionF s →
        aliveInv (supRunF s envs) ∧ hbAttributionF (supRunF s envs) := by
      intro envs
      induction envs with
      | nil => intro s _ ha hb; exact ⟨ha, hb⟩
      | cons e es ih =>
          intro s hgood ha hb
          obtain ⟨h1, h2⟩ := goodInv_supIterF s e (hgood e (List.mem_cons_self e es)) ha hb
          exact ih _ (fun e' h' => hgood e' (List.mem_cons_of_mem e h')) h1 h2
    intro envs hgood
    exact (run envs supInitF hgood (Or.inl rfl)
      (fun g t g' hf _ => by simp [supInitF] at hf)).2

/-- Witness for C10-amended: a successful unlink clears a stale record at
respawn, the unlink is attempted even when it will fail, and a short
all-good run ends with the record attributed to the current worker. -/
theorem respawn_clears_heartbeat_slot_under_good_io_witness :
    ((ensureWorkerF ⟨none, [], some (0, 40), 1⟩ false false).1.hbFile = none ∧
     (ensureWorkerF ⟨none, [], some (0, 40), 1⟩ false false).1.workerProc = some 1 ∧
     ((ensureWorkerF ⟨none, [], some (0, 40), 1⟩ false false).2 =
        [.clearHb, .spawnWorker 1] ∨
      (ensureWorkerF ⟨none, [], some (0, 40), 1⟩ false false).2 =
        [.sleepBackoff WORKER_RESTART_BACKOFF, .clearHb, .spawnWorker 1])) ∧
    ((ensureWorkerF ⟨none, [], some (0, 40), 1⟩ false true).2 =
        [.clearHb, .spawnWorker 1] ∨
     (ensureWorkerF ⟨none, [], some (0, 40), 1⟩ false true).2 =
        [.sleepBackoff WORKER_RESTART_BACKOFF, .clearHb, .spawnWorker 1]) ∧
    (0 : Nat) = 0 :=
  ⟨respawn_clears_heartbeat_slot_under_good_io.1 ⟨none, [], some (0, 40), 1⟩ false
      (Or.inl rfl),
   respawn_clears_heartbeat_slot_under_good_io.2.1 ⟨none, [], some (0, 40), 1⟩ false true
      (Or.inl rfl),
   respawn_clears_heartbeat_slot_under_good_io.2.2
      [⟨false, false, false, [(0, 3)], false, 4⟩] (by
        intro e' he'
        simp only [List.mem_singleton] at he'
        subst he'
        exact ⟨rfl, rfl⟩) 0 3 0 (by
        simp [supRunF, supIterF, supInitF, ensureWorkerF, applyHbWritesF,
          pollHeartbeatF, HEARTBEAT_TIMEOUT]
        norm_num) (by
        simp [supRunF, supIterF, supInitF, ensureWorkerF, applyHbWritesF,
          pollHeartbeatF, HEARTBEAT_TIMEOUT]
        norm_num)⟩

/-! ## Worker event loop (`main_worker = asyncio.gather(start_tiktok_client(), heartbeat_loop())`)

The worker runs two coroutines on one asyncio event loop. Embedding of the
relevant asyncio semantics: a coroutine suspended at an `await` that never
completes (a blocked socket read inside `client.start()`) stays suspended
while other ready tasks keep being scheduled; `asyncio.sleep(d)` resumes its
task once `d` seconds have elapsed. Time advances in one-second ticks.

`heartbeat_loop` is a `while True` whose body attempts
`hb_path.write_text(...)` inside `try/except` (a failed write is printed and
swallowed) and then sleeps `HEARTBEAT_INTERVAL` seconds, so its task is always
either running its body or sleeping — it never blocks on anything else.
-/

/-- Scheduling status of the connect coroutine (`start_tiktok_client`). -/
inductive TaskStatus where
  /-- suspended in `asyncio.sleep`, resuming at the given time -/
  | sleepingUntil (t : Nat)
  /-- suspended at an await that never completes (a hung blocked read) -/
  | blockedForever
deriving DecidableEq, Repr

/-- State of the worker's event loop. `hbWake` is when the heartbeat task's
current `asyncio.sleep` expires; `hbRecord` is the last successfully written
heartbeat timestamp; `hbIters` counts completed heartbeat-loop bodies;
`hbErrors` counts printed write-failure lines. -/
structure WorkerLoopState where
  now : Nat
  connectTask : TaskStatus
  hbWake : Nat
  hbRecord : Option Nat
  hbIters : Nat
  hbErrors : Nat
deriving DecidableEq, Repr

/-- One one-second tick of the worker's event loop. `co` gives the connect
coroutine's next status whenever its sleep expires (it re-enters
`client.start()`, whose outcome the environment decides); `wo` tells whether
the heartbeat write at a given time succeeds. A connect task that is
`blockedForever` never resumes — and, per asyncio's semantics, its suspension
plays no part in scheduling the heartbeat task. -/
def wtick (co : Nat → TaskStatus) (wo : Nat → Bool) (s : WorkerLoopState) : WorkerLoopState :=
  let now := s.now + 1
  let connectTask :=
    match s.connectTask with
    | .blockedForever => TaskStatus.blockedForever
    | .sleepingUntil t => if t ≤ now then co now else s.connectTask
  if s.hbWake ≤ now then
    { now := now, connectTask := connectTask,
      hbWake := now + HEARTBEAT_INTERVAL,
      hbRecord := if wo now then some now else s.hbRecord,
      hbIters := s.hbIters + 1,
      hbErrors := if wo now then s.hbErrors else s.hbErrors + 1 }
  else
    { s with now := now, connectTask := connectTask }

/-- Worker event-loop state right after `asyncio.gather` starts both
coroutines: the heartbeat body has run once at time 0 (its first write
attempt) and sleeps until `HEARTBEAT_INTERVAL`; the connect coroutine is in
`client.start()` with the given status. -/
def winit (c : TaskStatus) (wo : Nat → Bool) : WorkerLoopState :=
  { now := 0, connectTask := c, hbWake := HEARTBEAT_INTERVAL,
    hbRecord := if wo 0 then some 0 else none, hbIters := 1,
    hbErrors := if wo 0 then 0 else 1 }

/-- Run the worker event loop for `n` ticks. -/
def wrun (co : Nat → TaskStatus) (wo : Nat → Bool) (s : WorkerLoopState) : Nat → WorkerLoopState
  | 0 => s
  | n + 1 => wtick co wo (wrun co wo s n)

lemma wtick_due (co : Nat → TaskStatus) (wo : Nat → Bool) (s : WorkerLoopState)
    (h : s.hbWake ≤ s.now + 1) :
    (wtick co wo s).now = s.now + 1 ∧
    (wtick co wo s).hbWake = s.now + 1 + HEARTBEAT_INTERVAL ∧
    (wtick co wo s).hbIters = s.hbIters + 1 ∧
    (wtick co wo s).hbRecord = (if wo (s.now + 1) then some (s.now + 1) else s.hbRecord) := by
  simp only [wtick]
  rw [if_pos h]
  exact ⟨rfl, rfl, rfl, rfl⟩

lemma wtick_notdue (co : Nat → TaskStatus) (wo : Nat → Bool) (s : WorkerLoopState)
    (h : ¬ s.hbWake ≤ s.now + 1) :
    (wtick co wo s).now = s.now + 1 ∧
    (wtick co wo s).hbWake = s.hbWake ∧
    (wtick co wo s).hbIters = s.hbIters ∧
    (wtick co wo s).hbRecord = s.hbRecord := by
  simp only [wtick]
  rw [if_neg h]
  exact ⟨rfl, rfl, rfl, rfl⟩

lemma wrun_clock_invariant (co : Nat → TaskStatus) (wo : Nat → Bool)
    (c : TaskStatus) (n : Nat) :
    (wrun co wo (winit c wo) n).now = n ∧
    (wrun co wo (winit c wo) n).hbWake =
      HEARTBEAT_INTERVAL * (n / HEARTBEAT_INTERVAL) + HEARTBEAT_INTERVAL ∧
    (wrun co wo (winit c wo) n).hbIters = n / HEARTBEAT_INTERVAL + 1 := by
  have hI : HEARTBEAT_INTERVAL = 20 := rfl
  induction n with
  | zero => refine ⟨rfl, ?_, rfl⟩; simp [wrun, winit]
  | succ n ih =>
      obtain ⟨hnow, hwake, hiters⟩ := ih
      rw [hI] at hwake hiters
      have hstep : wrun co wo (winit c wo) (n + 1) =
          wtick co wo (wrun co wo (winit c wo) n) := rfl
      by_cases hw : (wrun co wo (winit c wo) n).hbWake ≤ (wrun co wo (winit c wo) n).now + 1
      · obtain ⟨t1, t2, t3, -⟩ := wtick_due co wo _ hw
        rw [← hstep] at t1 t2 t3
        rw [hnow] at t1
        rw [hnow, hI] at t2
        rw [hiters] at t3
        rw [hnow, hwake] at hw
        refine ⟨t1, ?_, ?_⟩ <;> rw [hI] <;> omega
      · obtain ⟨t1, t2, t3, -⟩ := wtick_notdue co wo _ hw
        rw [← hstep] at t1 t2 t3
        rw [hnow] at t1
        rw [hwake] at t2
        rw [hiters] at t3
        rw [hnow, hwake] at hw
        refine ⟨t1, ?_, ?_⟩ <;> rw [hI] <;> omega

lemma wrun_blocked_stays_blocked (co : Nat → TaskStatus) (wo : Nat → Bool) (n : Nat) :
    (wrun co wo (winit .blockedForever wo) n).connectTask = .blockedForever := by
  induction n with
  | zero => rfl
  | succ n ih =>
      by_cases hw : (wrun co wo (winit .blockedForever wo) n).hbWake ≤
          (wrun co wo (winit .blockedForever wo) n).now + 1 <;>
        simp only [wrun, wtick, ih, hw, if_true, if_false]

lemma wrun_record_all_writes_ok (co : Nat → TaskStatus) (c : TaskStatus) (n : Nat) :
    (wrun co (fun _ => true) (winit c (fun _ => true)) n).hbRecord =
      some (HEARTBEAT_INTERVAL * (n / HEARTBEAT_INTERVAL)) := by
  induction n with
  | zero => simp [wrun, winit]
  | succ n ih =>
      obtain ⟨hnow, hwake, -⟩ := wrun_clock_invariant co (fun _ => true) c n
      have hI : HEARTBEAT_INTERVAL = 20 := rfl
      by_cases hw : (wrun co (fun _ => true) (winit c (fun _ => true)) n).hbWake ≤ n + 1
      · have heq : n + 1 = 20 * ((n + 1) / 20) := by rw [hI] at hwake; omega
        simp only [wrun, wtick, hnow, hw, if_true, hI]
        rw [← hI]
        exact congrArg some (by rw [hI]; omega)
      · have hdiv : (n + 1) / 20 = n / 20 := by rw [hI] at hwake; omega
        simp only [wrun, wtick, hnow, hw, if_false, ih, hI, hdiv]

/-- **C2.** Heartbeat progress is decoupled from the connect loop: in any
execution where the connect coroutine is suspended forever inside
`client.start()` (a blocked read that never returns) and the heartbeat medium
works, after `n` seconds the heartbeat task has completed `n / 20 + 1`
iterations, the heartbeat record holds the most recent multiple of the
20-second period (so its age is always under one period), and the connect
coroutine is still blocked — it never had to run for the heartbeat to
progress. -/
theorem heartbeat_progresses_while_connect_hangs (co : Nat → TaskStatus) (n : Nat) :
    (wrun co (fun _ => true) (winit .blockedForever (fun _ => true)) n).hbIters =
      n / HEARTBEAT_INTERVAL + 1 ∧
    (wrun co (fun _ => true) (winit .blockedForever (fun _ => true)) n).hbRecord =
      some (HEARTBEAT_INTERVAL * (n / HEARTBEAT_INTERVAL)) ∧
    n - HEARTBEAT_INTERVAL * (n / HEARTBEAT_INTERVAL) < HEARTBEAT_INTERVAL ∧
    (wrun co (fun _ => true) (winit .blockedForever (fun _ => true)) n).connectTask =
      .blockedForever := by
  refine ⟨(wrun_clock_invariant co (fun _ => true) .blockedForever n).2.2,
    wrun_record_all_writes_ok co .blockedForever n, ?_,
    wrun_blocked_stays_blocked co (fun _ => true) n⟩
  have hI : HEARTBEAT_INTERVAL = 20 := rfl
  rw [hI]
  omega

/-- **C8.** I/O errors on the heartbeat medium are never fatal: an unreadable
record (a failing `stat`) makes the supervisor log and continue its poll loop
with nothing killed; a failing heartbeat write makes the worker's heartbeat
task log the error, keep its record, and go straight back to sleep for the
next period; and under any pattern of write failures the heartbeat task still
completes every one of its periodic iterations. -/
theorem heartbeat_io_errors_never_fatal :
    (∀ (s : SupState) (e : SupEnv) (g : Nat) (t : ℚ),
      s.hbFile = some (g, t) → e.statFails = true →
      pollHeartbeat s e = (s, [.logStatFail])) ∧
    (∀ (co : Nat → TaskStatus) (wo : Nat → Bool) (s : WorkerLoopState),
      s.hbWake ≤ s.now + 1 → wo (s.now + 1) = false →
      (wtick co wo s).hbErrors = s.hbErrors + 1 ∧
      (wtick co wo s).hbIters = s.hbIters + 1 ∧
      (wtick co wo s).hbRecord = s.hbRecord ∧
      (wtick co wo s).hbWake = s.now + 1 + HEARTBEAT_INTERVAL) ∧
    (∀ (co : Nat → TaskStatus) (wo : Nat → Bool) (c : TaskStatus) (n : Nat),
      (wrun co wo (winit c wo) n).hbIters = n / HEARTBEAT_INTERVAL + 1) := by
  refine ⟨?_, ?_, fun co wo c n => (wrun_clock_invariant co wo c n).2.2⟩
  · intro s e g t hf hsf
    simp [pollHeartbeat, hf, hsf]
  · intro co wo s hw hwo
    refine ⟨?_, ?_, ?_, ?_⟩ <;> simp [wtick, hw, hwo]

/-- Witness for C8: a failing `stat` on a present record is logged and
harmless, and a failing write at time 20 is logged while the loop re-sleeps. -/
theorem heartbeat_io_errors_never_fatal_witness :
    pollHeartbeat ⟨some 0, some (0, 100), 1⟩ ⟨false, none, true, 150⟩ =
      (⟨some 0, some (0, 100), 1⟩, [.logStatFail]) ∧
    ((wtick (fun _ => .blockedForever) (fun _ => false)
        ⟨19, .blockedForever, 20, some 0, 1, 0⟩).hbErrors = 0 + 1 ∧
     (wtick (fun _ => .blockedForever) (fun _ => false)
        ⟨19, .blockedForever, 20, some 0, 1, 0⟩).hbIters = 1 + 1 ∧
     (wtick (fun _ => .blockedForever) (fun _ => false)
        ⟨19, .blockedForever, 20, some 0, 1, 0⟩).hbRecord = some 0 ∧
     (wtick (fun _ => .blockedForever) (fun _ => false)
        ⟨19, .blockedForever, 20, some 0, 1, 0⟩).hbWake = 19 + 1 + HEARTBEAT_INTERVAL) :=
  ⟨heartbeat_io_errors_never_fatal.1 ⟨some 0, some (0, 100), 1⟩
      ⟨false, none, true, 150⟩ 0 100 rfl rfl,
   heartbeat_io_errors_never_fatal.2.1 (fun _ => .blockedForever) (fun _ => false)
      ⟨19, .blockedForever, 20, some 0, 1, 0⟩ (by decide) rfl⟩

end TikTokSupervisor
